import Mathlib

/-!
Shallow embedding of the SoramiBackend realtime-messaging subsystem.

Each definition mirrors one function of the JavaScript source:
* `Presence.*`         — src/utils/socketServer.js (connectedUsers map, connect and
                         disconnect handlers, isUserOnline, resolve via connectedUsers.get)
* `authMiddleware`     — src/middleware/authMiddleware.js, first variant (lines 5-30)
* `GroupDir.*`         — src/models/Group.js (groupSchema.methods.addMember, isMember)
* `MsgB.*`             — the richer message schema (chatType, status, readBy, deliveredTo)
                         and its instance methods markAsRead / markAsDelivered /
                         updateStatus / editMessage / deleteMessage
* `Chat.*`             — the direct-message store: the message schema with
                         isRead / readAt / deletedFor, the chatSession schema with
                         participants / unreadCount, and the HTTP controllers
                         sendMessage, getChatHistory, deleteMessage, markMessageAsRead,
                         getUnreadCount, together with ChatSession.findOrCreateSession.

JavaScript Maps are embedded as association lists with position-preserving `set`,
single-entry `delete`, and first-match `get`, matching Map semantics on the
duplicate-free key lists that the code constructs.  Timestamps (`new Date()`)
are explicit `Nat` parameters.  Mongoose documents are records; `save()` is
replacement of the matched record in the store list (messages are keyed by
their id field; chat sessions are keyed by the participants field, which the
schema declares as a unique index).
-/

namespace AList

/-- JS `Map.get`: first binding for the key, if any. -/
def get (l : List (String × Nat)) (k : String) : Option Nat :=
  (l.find? (fun p => p.1 = k)).map (fun p => p.2)

/-- JS `Map.set`: replace the binding in place, or append a new one. -/
def set : List (String × Nat) → String → Nat → List (String × Nat)
  | [], k, v => [(k, v)]
  | (k', v') :: rest, k, v =>
      if k' = k then (k, v) :: rest else (k', v') :: set rest k v

/-- JS `Map.delete`: remove the (unique) binding for the key. -/
def del : List (String × Nat) → String → List (String × Nat)
  | [], _ => []
  | (k', v') :: rest, k =>
      if k' = k then rest else (k', v') :: del rest k

/-- Keys are pairwise distinct, as in every JS `Map`. -/
def NodupKeys (l : List (String × Nat)) : Prop :=
  (l.map Prod.fst).Nodup

theorem get_set_self (l : List (String × Nat)) (k : String) (v : Nat) :
    get (set l k v) k = some v := by
  induction l with
  | nil => simp [get, set]
  | cons p rest ih =>
      obtain ⟨k', v'⟩ := p
      by_cases h : k' = k
      · simp [set, h, get]
      · simpa [set, h, get, List.find?] using ih

theorem get_set_ne (l : List (String × Nat)) (k k' : String) (v : Nat)
    (h : k' ≠ k) : get (set l k v) k' = get l k' := by
  induction l with
  | nil => simp [get, set, Ne.symm h]
  | cons p rest ih =>
      obtain ⟨a, b⟩ := p
      by_cases ha : a = k
      · subst ha
        simp [set, get, List.find?, Ne.symm h]
      · by_cases hb : a = k'
        · subst hb
          simp [set, ha, get, List.find?]
        · simpa [set, ha, get, List.find?, hb] using ih

theorem mem_keys_of_mem_keys_set (l : List (String × Nat)) (k x : String)
    (v : Nat) :
    x ∈ (set l k v).map Prod.fst → x ∈ l.map Prod.fst ∨ x = k := by
  induction l with
  | nil =>
      intro h
      simp only [set, List.map_cons, List.map_nil, List.mem_singleton] at h
      right; exact h
  | cons p rest ih =>
      obtain ⟨a, b⟩ := p
      intro h
      by_cases ha : a = k
      · subst ha
        simp only [set, eq_self_iff_true, if_true, List.map_cons,
          List.mem_cons] at h
        rcases h with h | h
        · right; exact h
        · left
          rw [List.map_cons]
          exact List.mem_cons_of_mem _ h
      · simp only [set, if_neg ha, List.map_cons, List.mem_cons] at h
        rcases h with h | h
        · left
          rw [List.map_cons, h]
          exact List.mem_cons_self a _
        · rcases ih h with h1 | h1
          · left
            rw [List.map_cons]
            exact List.mem_cons_of_mem _ h1
          · right; exact h1

theorem keys_set (l : List (String × Nat)) (k : String) (v : Nat)
    (h : NodupKeys l) : NodupKeys (set l k v) := by
  induction l with
  | nil => simp [set, NodupKeys]
  | cons p rest ih =>
      obtain ⟨a, b⟩ := p
      simp only [NodupKeys, List.map_cons, List.nodup_cons] at h
      by_cases ha : a = k
      · subst ha
        simpa [set, NodupKeys] using h
      · have hrest := ih h.2
        simp only [set, if_neg ha]
        simp only [NodupKeys, List.map_cons, List.nodup_cons]
        refine ⟨?_, hrest⟩
        intro hmem
        rcases mem_keys_of_mem_keys_set rest k a v hmem with h1 | h1
        · exact h.1 h1
        · exact ha h1

theorem get_del_self (l : List (String × Nat)) (k : String)
    (h : NodupKeys l) : get (del l k) k = none := by
  induction l with
  | nil => simp [get, del]
  | cons p rest ih =>
      obtain ⟨a, b⟩ := p
      simp only [NodupKeys, List.map_cons, List.nodup_cons] at h
      by_cases ha : a = k
      · subst ha
        -- deleting the head: the key cannot occur again in `rest`
        have hnone : rest.find? (fun p : String × Nat => p.1 = a) = none := by
          rw [List.find?_eq_none]
          intro x hx
          simp only [decide_eq_true_eq]
          intro hxa
          exact h.1 (hxa ▸ List.mem_map_of_mem Prod.fst hx)
        rw [show del ((a, b) :: rest) a = rest from by simp [del]]
        simp only [get]
        rw [hnone]
        rfl
      · simpa [del, ha, get, List.find?] using ih h.2
end AList

namespace Presence

/-- A socket.io connection: the socket id together with the authenticated
user id attached during the handshake. -/
structure Socket where
  sid : Nat
  userId : String
deriving DecidableEq, Repr

/-- The in-memory presence maps of `SocketServer`:
`connectedUsers : userId -> socketId` and `userSockets : userId -> socket`.
(The socket instance is represented by its id.) -/
structure State where
  connectedUsers : List (String × Nat)
  userSockets : List (String × Nat)
deriving DecidableEq, Repr

def emptyState : State := ⟨[], []⟩

/-- The `connection` handler: store the user connection in both maps. -/
def connect (st : State) (s : Socket) : State :=
  { connectedUsers := AList.set st.connectedUsers s.userId s.sid
    userSockets := AList.set st.userSockets s.userId s.sid }

/-- The `disconnect` handler: delete both entries keyed by the disconnecting
userId of the socket.  Note there is no comparison against the currently stored
socket id. -/
def disconnect (st : State) (s : Socket) : State :=
  { connectedUsers := AList.del st.connectedUsers s.userId
    userSockets := AList.del st.userSockets s.userId }

/-- `isUserOnline`: `connectedUsers.has(userId)`. -/
def isUserOnline (st : State) (u : String) : Bool :=
  (AList.get st.connectedUsers u).isSome

/-- Handle resolution, as used by `sendToUser`: `connectedUsers.get(userId)`. -/
def resolve (st : State) (u : String) : Option Nat :=
  AList.get st.connectedUsers u

/-- Presence states whose maps have duplicate-free keys (every state built by
the socket server satisfies this, since JS Maps cannot hold duplicate keys). -/
def WF (st : State) : Prop :=
  AList.NodupKeys st.connectedUsers ∧ AList.NodupKeys st.userSockets

end Presence

namespace JsStr

/-- Split a character list at every single space, keeping empty pieces,
matching the semantics of the JS `String.prototype.split(" ")`. -/
def chunks : List Char → List Char → List (List Char)
  | [], acc => [acc.reverse]
  | c :: cs, acc =>
      if c = ' ' then acc.reverse :: chunks cs [] else chunks cs (c :: acc)

/-- JS `s.split(" ")`. -/
def splitSpace (s : String) : List String :=
  (chunks s.data []).map (fun l => ⟨l⟩)

/-- JS `s.startsWith(p)`. -/
def startsWith (s p : String) : Bool :=
  decide (s.data.take p.data.length = p.data)

/-- JS whitespace test for `trim` (the common cases). -/
def isWs (c : Char) : Bool :=
  c = ' ' ∨ c = '\t' ∨ c = '\n' ∨ c = '\r'

/-- JS `s.trim()`. -/
def trim (s : String) : String :=
  ⟨((s.data.dropWhile isWs).reverse.dropWhile isWs).reverse⟩

end JsStr

/-- Outcome of one run of the express middleware: the value assigned to
`req.userId` (`none` = left undefined, `some none` = assigned `null`,
`some (some uid)` = assigned the decoded user id), the HTTP status written to
the response (if any), and whether `next()` was invoked. -/
structure MWOutcome where
  userId : Option (Option String)
  status : Option Nat
  next : Bool
deriving DecidableEq, Repr

/-- First `authMiddleware` variant (src/middleware/authMiddleware.js lines
5-30).  `header` is `req.headers.authorization`; `verify` abstracts
`jwt.verify`, returning the decoded userId or `none` when it throws. -/
def authMiddleware (header : Option String) (verify : String → Option String) :
    MWOutcome :=
  match header with
  | none => ⟨some none, none, true⟩
  | some h =>
      if JsStr.startsWith h "Bearer " then
        match (JsStr.splitSpace h)[1]? with
        | none => ⟨some none, none, true⟩
        | some t =>
            if t = "" then ⟨some none, none, true⟩
            else
              match verify t with
              | some uid => ⟨some (some uid), none, true⟩
              | none => ⟨none, some 403, true⟩
      else ⟨some none, none, true⟩

/-- C1 counterexample trace: user "u1" connects twice (socket ids 10 then 20),
then the stale socket 10 disconnects. -/
theorem presence_stale_unregister_counterexample :
    Presence.resolve
      (Presence.connect (Presence.connect Presence.emptyState ⟨10, "u1"⟩)
        ⟨20, "u1"⟩) "u1" = some 20 ∧
    ¬ Presence.resolve
        (Presence.disconnect
          (Presence.connect (Presence.connect Presence.emptyState ⟨10, "u1"⟩)
            ⟨20, "u1"⟩) ⟨10, "u1"⟩) "u1" = some 20 := by
  decide

/-- C1 (amended): after register(U, h1) then register(U, h2), resolve(U) = h2
(last-connect-wins holds); but the disconnect handler deletes the presence
entry keyed only by the userId of the disconnecting socket, without comparing
socket ids, so the stale disconnect of h1 evicts the live registration and
resolve(U) becomes none. -/
theorem presence_register_replaces_and_stale_disconnect_evicts
    (st : Presence.State) (hwf : Presence.WF st) (u : String) (s1 s2 : Nat) :
    Presence.resolve
      (Presence.connect (Presence.connect st ⟨s1, u⟩) ⟨s2, u⟩) u = some s2 ∧
    Presence.resolve
      (Presence.disconnect (Presence.connect (Presence.connect st ⟨s1, u⟩)
        ⟨s2, u⟩) ⟨s1, u⟩) u = none := by
  constructor
  · exact AList.get_set_self _ u s2
  · exact AList.get_del_self _ u
      (AList.keys_set _ u s2 (AList.keys_set _ u s1 hwf.1))

theorem presence_register_replaces_and_stale_disconnect_evicts_witness :
    Presence.WF Presence.emptyState ∧
    (Presence.resolve
      (Presence.connect (Presence.connect Presence.emptyState ⟨5, "u"⟩)
        ⟨6, "u"⟩) "u" = some 6 ∧
    Presence.resolve
      (Presence.disconnect
        (Presence.connect (Presence.connect Presence.emptyState ⟨5, "u"⟩)
          ⟨6, "u"⟩) ⟨5, "u"⟩) "u" = none) :=
  ⟨⟨List.nodup_nil, List.nodup_nil⟩,
    presence_register_replaces_and_stale_disconnect_evicts Presence.emptyState
      ⟨List.nodup_nil, List.nodup_nil⟩ "u" 5 6⟩

/-- C9: in the first authMiddleware variant, a request with no Authorization
header or a non-Bearer header is not rejected — req.userId is set to null and
next() is called; and when jwt.verify throws, a 403 response is sent and
next() is still called with req.userId left unassigned. -/
theorem authMiddleware_passthrough_and_403_still_calls_next
    (verify : String → Option String) :
    (authMiddleware none verify = ⟨some none, none, true⟩) ∧
    (∀ h, JsStr.startsWith h "Bearer " = false →
      authMiddleware (some h) verify = ⟨some none, none, true⟩) ∧
    (∀ h t, JsStr.startsWith h "Bearer " = true →
      (JsStr.splitSpace h)[1]? = some t → t ≠ "" → verify t = none →
      authMiddleware (some h) verify = ⟨none, some 403, true⟩) := by
  refine ⟨rfl, ?_, ?_⟩
  · intro h hns
    simp [authMiddleware, hns]
  · intro h t hs hsplit ht hv
    simp [authMiddleware, hs, hsplit, ht, hv]

theorem authMiddleware_passthrough_and_403_still_calls_next_witness :
    authMiddleware (some "Token xyz") (fun _ => none) =
      ⟨some none, none, true⟩ ∧
    authMiddleware (some "Bearer abc") (fun _ => none) =
      ⟨none, some 403, true⟩ :=
  ⟨(authMiddleware_passthrough_and_403_still_calls_next (fun _ => none)).2.1
      "Token xyz" (by decide),
   (authMiddleware_passthrough_and_403_still_calls_next (fun _ => none)).2.2
      "Bearer abc" "abc" (by decide) (by decide) (by decide) rfl⟩

namespace GroupDir

/-- One entry of groupSchema.members. -/
structure GMember where
  user : String
  role : String
  joinedAt : Nat
deriving DecidableEq, Repr

/-- The fields of groupSchema relevant to membership. -/
structure Group where
  creator : String
  admins : List String
  members : List GMember
  maxMembers : Nat
deriving DecidableEq, Repr

/-- `groupSchema.methods.isMember`. -/
def isMember (g : Group) (userId : String) : Bool :=
  g.members.any (fun m => m.user = userId)

/-- `groupSchema.methods.addMember`: throws "Group is full" when the member
list has reached maxMembers, checked BEFORE the existing-member test; a no-op
for an existing member otherwise; appends the new member (and, for role
admin, the admin entry) otherwise. -/
def addMember (g : Group) (userId : String) (role : String) (now : Nat) :
    Except String Group :=
  if g.maxMembers ≤ g.members.length then
    .error "Group is full"
  else if (g.members.find? (fun m => m.user = userId)).isSome then
    .ok g
  else
    .ok { g with
      members := g.members ++ [⟨userId, role, now⟩]
      admins := if role = "admin" then g.admins ++ [userId] else g.admins }

end GroupDir

/-- C8 counterexample: a group at capacity (max 2, two members) where the
added user is ALREADY a member: the claim demands a no-op, but addMember
raises the capacity error because the capacity check precedes the
existing-member test. -/
theorem addMember_full_group_existing_member_counterexample :
    GroupDir.isMember
      ⟨"a", ["a"], [⟨"a", "creator", 0⟩, ⟨"b", "member", 1⟩], 2⟩ "a" = true ∧
    GroupDir.addMember
      ⟨"a", ["a"], [⟨"a", "creator", 0⟩, ⟨"b", "member", 1⟩], 2⟩ "a" "member" 2
      = .error "Group is full" :=
  ⟨by decide, rfl⟩

/-- C8 (amended): addMember raises the capacity error whenever the member
count has already reached maxMembers — even when userId is already a member,
since the capacity check runs first; below capacity, adding an existing
member is a no-op (not an error), and adding a new member never pushes the
count past the maximum. -/
theorem addMember_capacity_and_noop (g : GroupDir.Group) (u role : String)
    (now : Nat) :
    (g.maxMembers ≤ g.members.length →
      GroupDir.addMember g u role now = .error "Group is full") ∧
    (g.members.length < g.maxMembers → GroupDir.isMember g u = true →
      GroupDir.addMember g u role now = .ok g) ∧
    (∀ g', GroupDir.addMember g u role now = .ok g' →
      g'.members.length ≤ g.maxMembers) := by
  refine ⟨?_, ?_, ?_⟩
  · intro hfull
    simp [GroupDir.addMember, hfull]
  · intro hroom hmem
    have hlt : ¬ g.maxMembers ≤ g.members.length := by omega
    have hfind : (g.members.find? (fun m => m.user = u)).isSome := by
      rw [List.find?_isSome]
      simp only [GroupDir.isMember, List.any_eq_true] at hmem
      obtain ⟨m, hm, hmu⟩ := hmem
      exact ⟨m, hm, hmu⟩
    simp [GroupDir.addMember, hlt, hfind]
  · intro g' hok
    by_cases hfull : g.maxMembers ≤ g.members.length
    · simp [GroupDir.addMember, hfull] at hok
    · by_cases hfind : (g.members.find? (fun m => m.user = u)).isSome
      · simp only [GroupDir.addMember, if_neg hfull, if_pos hfind,
          Except.ok.injEq] at hok
        subst hok
        omega
      · simp only [GroupDir.addMember, if_neg hfull, if_neg hfind,
          Except.ok.injEq] at hok
        subst hok
        simp only [List.length_append, List.length_cons, List.length_nil]
        omega

theorem addMember_capacity_and_noop_witness :
    ((2 : Nat) ≤ 2 ∧
      GroupDir.addMember
        ⟨"a", ["a"], [⟨"a", "creator", 0⟩, ⟨"b", "member", 1⟩], 2⟩ "c"
        "member" 2 = .error "Group is full") ∧
    ((1 : Nat) < 3 ∧
      GroupDir.isMember ⟨"a", ["a"], [⟨"a", "creator", 0⟩], 3⟩ "a" = true ∧
      GroupDir.addMember ⟨"a", ["a"], [⟨"a", "creator", 0⟩], 3⟩ "a" "member" 1
        = .ok ⟨"a", ["a"], [⟨"a", "creator", 0⟩], 3⟩) :=
  ⟨⟨by decide,
    (addMember_capacity_and_noop
      ⟨"a", ["a"], [⟨"a", "creator", 0⟩, ⟨"b", "member", 1⟩], 2⟩ "c" "member"
      2).1 (by decide)⟩,
   ⟨by decide, by decide,
    (addMember_capacity_and_noop ⟨"a", ["a"], [⟨"a", "creator", 0⟩], 3⟩ "a"
      "member" 1).2.1 (by decide) (by decide)⟩⟩

namespace MsgB

/-- The richer message schema: chatType private|group, an explicit lifecycle
status field, readBy and deliveredTo sets for group mode, and edit/delete
metadata. -/
structure Message where
  type : String
  chatType : String
  sender : String
  receiver : Option String
  group : Option String
  content : String
  status : String
  readBy : List (String × Nat)
  deliveredTo : List (String × Nat)
  edited : Bool
  editedAt : Option Nat
  deleted : Bool
  deletedAt : Option Nat
deriving DecidableEq, Repr

/-- `messageSchema.methods.markAsRead`: for private chats it assigns
status := read unconditionally; for group chats it appends to readBy unless
the user is already present. -/
def markAsRead (m : Message) (userId : String) (now : Nat) : Message :=
  if m.chatType = "private" then
    { m with status := "read" }
  else if (m.readBy.find? (fun r => r.1 = userId)).isSome then m
  else { m with readBy := m.readBy ++ [(userId, now)] }

/-- `messageSchema.methods.markAsDelivered`: for private chats it assigns
status := delivered unconditionally (even on an already-read message); for
group chats it appends to deliveredTo unless already present. -/
def markAsDelivered (m : Message) (userId : String) (now : Nat) : Message :=
  if m.chatType = "private" then
    { m with status := "delivered" }
  else if (m.deliveredTo.find? (fun d => d.1 = userId)).isSome then m
  else { m with deliveredTo := m.deliveredTo ++ [(userId, now)] }

/-- `messageSchema.methods.updateStatus`: assigns any given status. -/
def updateStatus (m : Message) (status : String) : Message :=
  { m with status := status }

/-- `messageSchema.methods.editMessage`. -/
def editMessage (m : Message) (newContent : String) (now : Nat) : Message :=
  { m with content := newContent, edited := true, editedAt := some now }

/-- `messageSchema.methods.deleteMessage` (soft delete via metadata). -/
def softDelete (m : Message) (now : Nat) : Message :=
  { m with deleted := true, deletedAt := some now }

/-- Position of a status along the lifecycle order
sending -> sent -> delivered -> read (failed and unknown values rank 0). -/
def statusRank (s : String) : Nat :=
  if s = "sent" then 1
  else if s = "delivered" then 2
  else if s = "read" then 3
  else 0

theorem statusRank_le_three (s : String) : statusRank s ≤ 3 := by
  unfold statusRank
  split <;> [omega; skip]
  split <;> [omega; skip]
  split <;> omega

end MsgB

/-- C3 counterexample: a private message whose status is already read; a
single markAsDelivered call (a reachable acknowledgement operation) moves the
status backwards from read to delivered. -/
theorem message_status_regression_counterexample :
    (MsgB.markAsDelivered
      ⟨"text", "private", "a", some "b", none, "hi", "read", [], [], false,
        none, false, none⟩ "b" 5).status = "delivered" ∧
    MsgB.statusRank "delivered" < MsgB.statusRank "read" := by
  decide

/-- C3 (amended): markAsRead never lowers the lifecycle rank (for private
messages it assigns the maximal status read; for group messages it leaves
status untouched), and for group messages markAsDelivered also leaves status
untouched; but markAsDelivered assigns status := delivered unconditionally on
private messages and updateStatus assigns any value, so an already-read
private message regresses to delivered (or to sent) — the no-regression
invariant does not hold for the private path. -/
theorem message_status_monotone_only_for_markAsRead (m : MsgB.Message)
    (u : String) (now : Nat) :
    MsgB.statusRank m.status ≤ MsgB.statusRank (MsgB.markAsRead m u now).status
    ∧ (m.chatType ≠ "private" →
        (MsgB.markAsDelivered m u now).status = m.status)
    ∧ (m.chatType = "private" →
        (MsgB.markAsDelivered m u now).status = "delivered") := by
  refine ⟨?_, ?_, ?_⟩
  · unfold MsgB.markAsRead
    by_cases hp : m.chatType = "private"
    · simp only [if_pos hp]
      exact MsgB.statusRank_le_three m.status
    · simp only [if_neg hp]
      split <;> simp
  · intro hp
    unfold MsgB.markAsDelivered
    simp only [if_neg hp]
    split <;> simp
  · intro hp
    unfold MsgB.markAsDelivered
    simp [hp]

theorem message_status_monotone_only_for_markAsRead_witness :
    (MsgB.statusRank "sent" ≤ MsgB.statusRank
      (MsgB.markAsRead
        ⟨"text", "private", "a", some "b", none, "hi", "sent", [], [], false,
          none, false, none⟩ "b" 4).status) ∧
    ("group" ≠ "private") ∧
    (MsgB.markAsDelivered
      ⟨"text", "group", "a", none, some "g", "hi", "sent", [], [], false,
        none, false, none⟩ "b" 4).status = "sent" :=
  ⟨(message_status_monotone_only_for_markAsRead
      ⟨"text", "private", "a", some "b", none, "hi", "sent", [], [], false,
        none, false, none⟩ "b" 4).1,
   by decide,
   (message_status_monotone_only_for_markAsRead
      ⟨"text", "group", "a", none, some "g", "hi", "sent", [], [], false,
        none, false, none⟩ "b" 4).2.1 (by decide)⟩

namespace Chat

/-- Lexicographic comparison of character lists, the order underlying the JS
default array sort used on the two participant id strings. -/
def charListLe : List Char → List Char → Bool
  | [], _ => true
  | _ :: _, [] => false
  | a :: as, b :: bs =>
      if a < b then true else if b < a then false else charListLe as bs

/-- Lexicographic string comparison. -/
def strLe (a b : String) : Bool := charListLe a.data b.data

/-- `[user1Id, user2Id].sort()` for the two-element participants array. -/
def sortPair (a b : String) : List String :=
  if strLe a b then [a, b] else [b, a]

theorem charListLe_total (as bs : List Char) :
    charListLe as bs = false → charListLe bs as = true := by
  induction as generalizing bs with
  | nil => intro h; simp [charListLe] at h
  | cons a as ih =>
      intro h
      cases bs with
      | nil => simp [charListLe]
      | cons b bs =>
          simp only [charListLe] at h ⊢
          by_cases hab : a < b
          · simp [hab] at h
          · by_cases hba : b < a
            · simp [hba]
            · simp only [if_neg hab, if_neg hba] at h
              simp only [if_neg hba, if_neg hab]
              exact ih bs h

theorem charListLe_antisymm (as bs : List Char) :
    charListLe as bs = true → charListLe bs as = true → as = bs := by
  induction as generalizing bs with
  | nil =>
      intro _ h2
      cases bs with
      | nil => rfl
      | cons b bs => simp [charListLe] at h2
  | cons a as ih =>
      intro h1 h2
      cases bs with
      | nil => simp [charListLe] at h1
      | cons b bs =>
          simp only [charListLe] at h1 h2
          by_cases hab : a < b
          · have hba : ¬ b < a := by
              intro hc
              have h1n : a.val.toNat < b.val.toNat := hab
              have h2n : b.val.toNat < a.val.toNat := hc
              omega
            rw [if_neg hba, if_pos hab] at h2
            exact absurd h2 (by simp)
          · by_cases hba : b < a
            · simp [hab, hba] at h1
            · simp only [if_neg hab, if_neg hba] at h1 h2
              have hd : a = b := by
                have h1n : ¬ a.val.toNat < b.val.toNat := hab
                have h2n : ¬ b.val.toNat < a.val.toNat := hba
                exact Char.ext (UInt32.ext (by omega))
              rw [hd, ih bs h1 h2]

theorem sortPair_comm (a b : String) : sortPair a b = sortPair b a := by
  unfold sortPair strLe
  by_cases h1 : charListLe a.data b.data = true
  · by_cases h2 : charListLe b.data a.data = true
    · have hd : a.data = b.data := charListLe_antisymm _ _ h1 h2
      have hab : a = b := by
        cases a; cases b
        exact congrArg String.mk hd
      subst hab
      rfl
    · simp [h1, Bool.of_not_eq_true h2]
  · have h2 : charListLe b.data a.data = true :=
      charListLe_total _ _ (Bool.of_not_eq_true h1)
    simp [Bool.of_not_eq_true h1, h2]

/-- The message schema used by the direct-message controllers: sender,
receiver, bounded content, messageType enum, isRead flag + readAt timestamp,
deletedFor list.  `createdAt` carries the timestamps(true) field. -/
structure Msg where
  id : Nat
  sender : String
  receiver : String
  content : String
  messageType : String
  isRead : Bool
  readAt : Option Nat
  deletedFor : List String
  createdAt : Nat
deriving DecidableEq, Repr

/-- Per-user settings entry of the chatSession schema. -/
structure UserSettings where
  muted : Bool
  blocked : Bool
  lastSeen : Nat
deriving DecidableEq, Repr

/-- The chatSession schema: two participants (stored sorted by
findOrCreateSession), last message pointer, per-user unread counters, an
isActive flag, and per-user settings.  The schema puts a unique index on the
participants array, so sessions are keyed by it. -/
structure Session where
  participants : List String
  lastMessage : Option Nat
  lastMessageAt : Nat
  unreadCount : List (String × Nat)
  userSettings : List (String × UserSettings)
  isActive : Bool
deriving DecidableEq, Repr

/-- The persistent store: registered user ids, the message collection, the
chat session collection, and the next fresh message id. -/
structure DB where
  users : List String
  messages : List Msg
  sessions : List Session
  nextId : Nat
deriving DecidableEq, Repr

/-- `chatSessionSchema.methods.getUnreadCount`. -/
def getUnreadCount (sess : Session) (u : String) : Nat :=
  (AList.get sess.unreadCount u).getD 0

/-- `chatSessionSchema.methods.incrementUnreadCount` (without the save). -/
def incrementUnreadCount (sess : Session) (u : String) : Session :=
  { sess with unreadCount := AList.set sess.unreadCount u (getUnreadCount sess u + 1) }

/-- `chatSessionSchema.methods.resetUnreadCount` (without the save). -/
def resetUnreadCount (sess : Session) (u : String) : Session :=
  { sess with unreadCount := AList.set sess.unreadCount u 0 }

/-- `session.save()`: replace the stored document; sessions are keyed by the
participants array (unique index in the schema). -/
def saveSession (db : DB) (sess : Session) : DB :=
  let ss := db.sessions.map
    (fun t => if t.participants = sess.participants then sess else t)
  { db with sessions := ss }

/-- `chatSessionSchema.statics.findOrCreateSession`: sort the two ids, look
the session up by the sorted participants array, create it with zeroed
counters and default settings when absent. -/
def findOrCreateSession (db : DB) (user1Id user2Id : String) (now : Nat) :
    Session × DB :=
  let participants := sortPair user1Id user2Id
  match db.sessions.find? (fun ss => ss.participants = participants) with
  | some session => (session, db)
  | none =>
      let session : Session :=
        { participants := participants
          lastMessage := none
          lastMessageAt := now
          unreadCount := [(user1Id, 0), (user2Id, 0)]
          userSettings := [(user1Id, ⟨false, false, now⟩),
                           (user2Id, ⟨false, false, now⟩)]
          isActive := true }
      (session, { db with sessions := db.sessions ++ [session] })

/-- The HTTP controller sendMessage: content validation (nonempty after
trim, at most 1000 chars on the raw string, recognized messageType),
receiver existence (404 when absent), self-send rejection, then message
creation with isRead := false, session update and unread increment for the
receiver.  The message schema declares trim:true on the content field, so
the document constructor stores the TRIMMED content while the controller
validates the raw string. -/
def sendMessage (db : DB) (senderId receiverId content messageType : String)
    (now : Nat) : Except (Nat × String) (DB × Msg) :=
  if (JsStr.trim content).length = 0 then
    .error (400, "Valid message content is required")
  else if 1000 < content.length then
    .error (400, "Message content too long (max 1000 characters)")
  else if !(["text", "image", "file"].contains messageType) then
    .error (400, "Invalid message type")
  else if !(db.users.contains receiverId) then
    .error (404, "Receiver not found")
  else if senderId = receiverId then
    .error (400, "Cannot send message to yourself")
  else
    let fc := findOrCreateSession db senderId receiverId now
    let session := fc.1
    let db1 := fc.2
    let msg : Msg :=
      { id := db1.nextId, sender := senderId, receiver := receiverId,
        content := JsStr.trim content, messageType := messageType,
        isRead := false, readAt := none, deletedFor := [], createdAt := now }
    let db2 :=
      { db1 with messages := db1.messages ++ [msg], nextId := db1.nextId + 1 }
    let session1 := incrementUnreadCount
      { session with lastMessage := some msg.id, lastMessageAt := now }
      receiverId
    .ok (saveSession db2 session1, msg)

/-- The conversation query of getChatHistory: both directions between the
two users, excluding messages soft-deleted for the requesting viewer. -/
def betweenPair (m : Msg) (a b : String) : Bool :=
  (m.sender == a && m.receiver == b) || (m.sender == b && m.receiver == a)

def visibleHistory (db : DB) (viewer a b : String) : List Msg :=
  db.messages.filter
    (fun m => betweenPair m a b && !(m.deletedFor.contains viewer))

/-- `.sort({createdAt: -1})`: newest first. -/
def insertByCreatedDesc (m : Msg) : List Msg → List Msg
  | [] => [m]
  | x :: xs =>
      if x.createdAt ≤ m.createdAt then m :: x :: xs
      else x :: insertByCreatedDesc m xs

def sortByCreatedDesc : List Msg → List Msg
  | [] => []
  | m :: ms => insertByCreatedDesc m (sortByCreatedDesc ms)

/-- The updateMany mutation of getChatHistory: every unread message from the
target to the requester gets isRead := true and readAt := now. -/
def markHistFn (tgt cur : String) (now : Nat) : Msg → Msg := fun m =>
  if m.sender == tgt && m.receiver == cur && !m.isRead then
    { m with isRead := true, readAt := some now }
  else m

/-- The HTTP controller getChatHistory: pagination validation, target user
existence, session lookup via participants `$all`, paginated page of the
visible conversation (returned oldest-to-newest), then the side effects:
EVERY unread message from target to requester is marked read (updateMany is
not limited to the returned page) and the unread counter of the requester for the
session is reset to zero. -/
def getChatHistory (db : DB) (currentUserId targetUserId : String)
    (page limit now : Nat) : Except (Nat × String) (List Msg × DB) :=
  if page < 1 then
    .error (400, "Invalid page number")
  else if limit < 1 || 100 < limit then
    .error (400, "Invalid limit (must be between 1 and 100)")
  else if !(db.users.contains targetUserId) then
    .error (404, "Target user not found")
  else
    match db.sessions.find? (fun ss =>
        ss.participants.contains currentUserId &&
        ss.participants.contains targetUserId) with
    | none => .ok ([], db)
    | some session =>
        let skip := (page - 1) * limit
        let msgs := ((sortByCreatedDesc
          (visibleHistory db currentUserId currentUserId targetUserId)).drop
            skip).take limit
        let marked := db.messages.map (markHistFn targetUserId currentUserId now)
        let db2 := saveSession { db with messages := marked }
          (resetUnreadCount session currentUserId)
        .ok (msgs.reverse, db2)

def findMessage (db : DB) (mid : Nat) : Option Msg :=
  db.messages.find? (fun m => m.id = mid)

/-- The mutation applied to the matched document by deleteMessage:
push currentUserId onto deletedFor. -/
def delFn (mid : Nat) (uid : String) : Msg → Msg := fun x =>
  if x.id = mid then { x with deletedFor := x.deletedFor ++ [uid] } else x

/-- The mutation applied to the matched document by markMessageAsRead:
isRead := true, readAt := now. -/
def markReadFn (mid : Nat) (now : Nat) : Msg → Msg := fun x =>
  if x.id = mid then { x with isRead := true, readAt := some now } else x

/-- The HTTP controller deleteMessage: 404 when absent, 403 unless the
requester is the sender, then push the requester onto deletedFor (only if
not already present). -/
def deleteMessage (db : DB) (mid : Nat) (currentUserId : String) :
    Except (Nat × String) DB :=
  match findMessage db mid with
  | none => .error (404, "Message not found")
  | some m =>
      if m.sender ≠ currentUserId then
        .error (403, "Cannot delete message from others")
      else if m.deletedFor.contains currentUserId then .ok db
      else
        .ok { db with messages := db.messages.map (delFn mid currentUserId) }

/-- The HTTP controller markMessageAsRead: 404 when absent, 403 unless the
requester is the receiver, then set isRead := true and readAt := now.  Note
it does NOT touch any chat session counter. -/
def markMessageAsRead (db : DB) (mid : Nat) (currentUserId : String)
    (now : Nat) : Except (Nat × String) DB :=
  match findMessage db mid with
  | none => .error (404, "Message not found")
  | some m =>
      if m.receiver ≠ currentUserId then
        .error (403, "Cannot mark others message as read")
      else
        .ok { db with messages := db.messages.map (markReadFn mid now) }

/-- The HTTP controller getUnreadCount: the sum of the per-session cached
counters over the active sessions containing the user. -/
def getUnreadCountTotal (db : DB) (u : String) : Nat :=
  ((db.sessions.filter (fun ss => ss.participants.contains u && ss.isActive)).map
    (fun ss => getUnreadCount ss u)).foldl (· + ·) 0

/-- Ground truth in the Message Store: the number of messages addressed to u
that are unread and not soft-deleted for u. -/
def unreadGroundTruth (db : DB) (u : String) : Nat :=
  (db.messages.filter (fun m =>
    m.receiver == u && !m.isRead && !(m.deletedFor.contains u))).length

/-- The message fields returned to a viewer, minus the deletedFor
bookkeeping list. -/
def msgView (m : Msg) :
    Nat × String × String × String × String × Bool × Option Nat × Nat :=
  (m.id, m.sender, m.receiver, m.content, m.messageType, m.isRead, m.readAt,
    m.createdAt)

/-- The conversation key of createPrivateSession in the alternative
chatSession schema: sorted ids joined with an underscore. -/
def privateChatId (user1Id user2Id : String) : String :=
  String.intercalate "_" (sortPair user1Id user2Id)

end Chat

/-- Decidable equality for Except results, so concrete runs can be checked
by evaluation. -/
def exceptDecEq {ε α : Type} [DecidableEq ε] [DecidableEq α] :
    DecidableEq (Except ε α)
  | .error e, .error e' =>
      if h : e = e' then .isTrue (by rw [h])
      else .isFalse (by intro hc; cases hc; exact h rfl)
  | .error _, .ok _ => .isFalse (by intro hc; cases hc)
  | .ok _, .error _ => .isFalse (by intro hc; cases hc)
  | .ok a, .ok a' =>
      if h : a = a' then .isTrue (by rw [h])
      else .isFalse (by intro hc; cases hc; exact h rfl)

instance {ε α : Type} [DecidableEq ε] [DecidableEq α] :
    DecidableEq (Except ε α) := exceptDecEq

namespace Chat

/-- Two registered users, no traffic yet. -/
def demoDB0 : DB := ⟨["a", "b"], [], [], 0⟩

/-- The message produced by `sendMessage demoDB0 "a" "b" "hi" "text" 10`. -/
def demoMsg : Msg := ⟨0, "a", "b", "hi", "text", false, none, [], 10⟩

/-- The session produced by that send: unread counter 1 for the receiver. -/
def demoSession : Session :=
  ⟨["a", "b"], some 0, 10, [("a", 0), ("b", 1)],
   [("a", ⟨false, false, 10⟩), ("b", ⟨false, false, 10⟩)], true⟩

/-- The store after the send. -/
def demoDB1 : DB := ⟨["a", "b"], [demoMsg], [demoSession], 1⟩

/-- The store after the receiver marks the message read at time 11 via the
markMessageAsRead endpoint: the flag flips but the counter stays 1. -/
def demoDB2 : DB :=
  ⟨["a", "b"], [⟨0, "a", "b", "hi", "text", true, some 11, [], 10⟩],
   [demoSession], 1⟩

end Chat

/-- C4: findOrCreatePrivateSession is commutative in its two arguments:
resolving (A,B) and then (B,A) yields the identical stored session record and
changes nothing (so at most one private session exists per unordered pair);
a direct (B,A) call resolves to a session with the same sorted participants
key; and the createPrivateSession conversation key is order-independent. -/
theorem findOrCreatePrivateSession_commutative (db : Chat.DB) (a b : String)
    (now : Nat) :
    Chat.findOrCreateSession (Chat.findOrCreateSession db a b now).2 b a now =
      ((Chat.findOrCreateSession db a b now).1,
        (Chat.findOrCreateSession db a b now).2) ∧
    (Chat.findOrCreateSession db b a now).1.participants =
      (Chat.findOrCreateSession db a b now).1.participants ∧
    Chat.privateChatId a b = Chat.privateChatId b a := by
  have hkey : Chat.sortPair b a = Chat.sortPair a b := Chat.sortPair_comm b a
  refine ⟨?_, ?_, ?_⟩
  · cases hfind : db.sessions.find?
        (fun ss => ss.participants = Chat.sortPair a b) with
    | some sess =>
        simp [Chat.findOrCreateSession, hkey, hfind]
    | none =>
        simp only [Chat.findOrCreateSession, hkey, hfind]
        rw [List.find?_append, hfind]
        simp
  · cases hfind : db.sessions.find?
        (fun ss => ss.participants = Chat.sortPair a b) with
    | some sess => simp [Chat.findOrCreateSession, hkey, hfind]
    | none => simp [Chat.findOrCreateSession, hkey, hfind]
  · unfold Chat.privateChatId
    rw [Chat.sortPair_comm]

/-- C2 counterexample trace: "a" sends one message to "b" (the aggregate
unread count and the Message-Store ground truth both become 1), then "b"
marks that message read via markMessageAsRead; afterwards the aggregate
cache still reports 1 while the store holds 0 unread messages for "b" — the
claimed equality fails after a send followed by markAsRead. -/
theorem unread_cache_vs_ground_truth_counterexample :
    Chat.sendMessage Chat.demoDB0 "a" "b" "hi" "text" 10 =
      .ok (Chat.demoDB1, Chat.demoMsg) ∧
    Chat.markMessageAsRead Chat.demoDB1 0 "b" 11 = .ok Chat.demoDB2 ∧
    Chat.getUnreadCountTotal Chat.demoDB2 "b" = 1 ∧
    Chat.unreadGroundTruth Chat.demoDB2 "b" = 0 ∧
    Chat.getUnreadCountTotal Chat.demoDB2 "b" ≠
      Chat.unreadGroundTruth Chat.demoDB2 "b" := by
  refine ⟨by decide, by decide, by decide, by decide, by decide⟩

/-- C2 (amended): getUnreadCountTotal is the fold of the per-session cached
counters, but that cache can drift from the Message Store: a successful
markMessageAsRead call rewrites only the message collection (setting the
read flag and timestamp) and leaves every chat session — hence every cached
unread counter and the aggregate — unchanged, so after a send followed by
markAsRead the aggregate exceeds the number of unread stored messages. -/
theorem markMessageAsRead_never_updates_counters (db : Chat.DB) (mid : Nat)
    (u : String) (now : Nat) (db1 : Chat.DB)
    (h : Chat.markMessageAsRead db mid u now = .ok db1) :
    db1.sessions = db.sessions ∧
    (∀ v, Chat.getUnreadCountTotal db1 v = Chat.getUnreadCountTotal db v) ∧
    db1.messages = db.messages.map (Chat.markReadFn mid now) := by
  unfold Chat.markMessageAsRead at h
  split at h
  · cases h
  · split at h
    · cases h
    · cases h
      refine ⟨rfl, ?_, rfl⟩
      intro v
      unfold Chat.getUnreadCountTotal
      rfl

theorem markMessageAsRead_never_updates_counters_witness :
    Chat.demoDB2.sessions = Chat.demoDB1.sessions ∧
    (∀ v, Chat.getUnreadCountTotal Chat.demoDB2 v =
      Chat.getUnreadCountTotal Chat.demoDB1 v) ∧
    Chat.demoDB2.messages = Chat.demoDB1.messages.map (Chat.markReadFn 0 11) :=
  markMessageAsRead_never_updates_counters Chat.demoDB1 0 "b" 11 Chat.demoDB2
    (by decide)

namespace Chat

theorem markReadFn_id (mid now : Nat) (x : Msg) :
    (markReadFn mid now x).id = x.id := by
  unfold markReadFn; split <;> rfl

theorem markReadFn_receiver (mid now : Nat) (x : Msg) :
    (markReadFn mid now x).receiver = x.receiver := by
  unfold markReadFn; split <;> rfl

theorem markReadFn_idem (mid now : Nat) (x : Msg) :
    markReadFn mid now (markReadFn mid now x) = markReadFn mid now x := by
  unfold markReadFn
  by_cases h : x.id = mid
  · simp [h]
  · simp [h]

theorem find?_map_markReadFn (l : List Msg) (mid now : Nat) :
    (l.map (markReadFn mid now)).find? (fun m => m.id = mid) =
      (l.find? (fun m => m.id = mid)).map (markReadFn mid now) := by
  rw [List.find?_map]
  have hp : ((fun m : Msg => decide (m.id = mid)) ∘ markReadFn mid now) =
      (fun m : Msg => decide (m.id = mid)) := by
    funext x
    simp [Function.comp, markReadFn_id]
  rw [hp]

theorem map_markReadFn_idem (l : List Msg) (mid now : Nat) :
    (l.map (markReadFn mid now)).map (markReadFn mid now) =
      l.map (markReadFn mid now) := by
  rw [List.map_map]
  congr 1
  funext x
  simp [Function.comp, markReadFn_idem]

/-- The store after a SECOND markMessageAsRead call at time 12: the read
timestamp has been overwritten. -/
def demoDB2b : DB :=
  ⟨["a", "b"], [⟨0, "a", "b", "hi", "text", true, some 12, [], 10⟩],
   [demoSession], 1⟩

end Chat

/-- C5 counterexample: "b" marks message 0 as read at time 11 (terminal
state demoDB2 with readAt = 11); calling markMessageAsRead a second time at
time 12 produces a DIFFERENT terminal state: readAt is overwritten to 12, so
two calls do not yield the same terminal message state as one call. -/
theorem markAsRead_twice_overwrites_readAt_counterexample :
    Chat.markMessageAsRead Chat.demoDB1 0 "b" 11 = .ok Chat.demoDB2 ∧
    Chat.markMessageAsRead Chat.demoDB2 0 "b" 12 = .ok Chat.demoDB2b ∧
    Chat.demoDB2b ≠ Chat.demoDB2 := by
  refine ⟨by decide, by decide, by decide⟩

/-- C5 (amended): a repeated markMessageAsRead never fails (the message is
still found and the requester is still the receiver) and is idempotent up to
the read timestamp: a second call carrying the same timestamp returns
exactly the previous state unchanged; only a later timestamp overwrites
readAt.  (No read-receipt side effect exists on this HTTP path at all, so
nothing can double-fire.) -/
theorem markMessageAsRead_repeat_idempotent (db : Chat.DB) (mid : Nat)
    (u : String) (t : Nat) (db1 : Chat.DB)
    (h : Chat.markMessageAsRead db mid u t = .ok db1) :
    Chat.markMessageAsRead db1 mid u t = .ok db1 := by
  unfold Chat.markMessageAsRead at h
  cases hfind : Chat.findMessage db mid with
  | none => rw [hfind] at h; cases h
  | some m =>
      rw [hfind] at h
      dsimp only at h
      by_cases hr : m.receiver ≠ u
      · rw [if_pos hr] at h; cases h
      · rw [if_neg hr] at h
        cases h
        have hfind1 : Chat.findMessage
            { db with messages := db.messages.map (Chat.markReadFn mid t) }
            mid = some (Chat.markReadFn mid t m) := by
          unfold Chat.findMessage at hfind ⊢
          rw [Chat.find?_map_markReadFn, hfind]
          rfl
        unfold Chat.markMessageAsRead
        rw [hfind1]
        dsimp only
        rw [if_neg (by rw [Chat.markReadFn_receiver]; exact hr)]
        rw [Chat.map_markReadFn_idem]

theorem markMessageAsRead_repeat_idempotent_witness :
    Chat.markMessageAsRead Chat.demoDB2 0 "b" 11 = .ok Chat.demoDB2 :=
  markMessageAsRead_repeat_idempotent Chat.demoDB1 0 "b" 11 Chat.demoDB2
    (by decide)

namespace Chat

theorem msgView_delFn (mid : Nat) (uid : String) (x : Msg) :
    msgView (delFn mid uid x) = msgView x := by
  unfold delFn msgView; split <;> rfl

theorem betweenPair_delFn (mid : Nat) (uid : String) (x : Msg)
    (a b : String) : betweenPair (delFn mid uid x) a b = betweenPair x a b := by
  unfold delFn betweenPair; split <;> rfl

theorem contains_append_ne (l : List String) (uid y : String)
    (hy : y ≠ uid) : (l ++ [uid]).contains y = l.contains y := by
  cases hc : l.contains y with
  | true =>
      have hm : y ∈ l := List.elem_iff.mp hc
      exact List.elem_iff.mpr (List.mem_append_left _ hm)
  | false =>
      have hm : y ∉ l := by
        intro hmem
        have ht : l.contains y = true := List.elem_iff.mpr hmem
        rw [ht] at hc
        cases hc
      have hnotin : y ∉ l ++ [uid] := by
        intro hmem
        rcases List.mem_append.mp hmem with h | h
        · exact hm h
        · exact hy (List.mem_singleton.mp h)
      cases hc2 : (l ++ [uid]).contains y with
      | false => rfl
      | true => exact absurd (List.elem_iff.mp hc2) hnotin

theorem contains_delFn (mid : Nat) (uid y : String) (x : Msg)
    (hy : y ≠ uid) :
    (delFn mid uid x).deletedFor.contains y = x.deletedFor.contains y := by
  unfold delFn
  split
  · show (x.deletedFor ++ [uid]).contains y = x.deletedFor.contains y
    exact contains_append_ne x.deletedFor uid y hy
  · rfl

theorem visibleHistory_after_delete (db : DB) (mid : Nat) (x y p q : String)
    (hy : y ≠ x) :
    (visibleHistory { db with messages := db.messages.map (delFn mid x) }
      y p q).map msgView = (visibleHistory db y p q).map msgView := by
  unfold visibleHistory
  rw [List.filter_map]
  have hp : ((fun m => betweenPair m p q && !(m.deletedFor.contains y)) ∘
      delFn mid x) =
      (fun m : Msg => betweenPair m p q && !(m.deletedFor.contains y)) := by
    funext m
    simp only [Function.comp, betweenPair_delFn, contains_delFn mid x y m hy]
  rw [hp, List.map_map]
  have hv : (msgView ∘ delFn mid x) = msgView := by
    funext m
    exact msgView_delFn mid x m
  rw [hv]

/-- The store after the sender "a" soft-deletes message 0: only the
deletedFor list of that message changed. -/
def demoDB1del : DB :=
  ⟨["a", "b"], [⟨0, "a", "b", "hi", "text", false, none, ["a"], 10⟩],
   [demoSession], 1⟩

end Chat

/-- C6: deleteMessage answers 403 whenever the requester is not the sender
(the store is untouched since no state is returned), and a successful
soft-delete only adds the requester to the deleted-for list of the one
message, so every other viewer sees exactly the same conversation history
(same messages, same contents, same read flags) before and after. -/
theorem softDelete_forbidden_and_preserves_other_histories (db : Chat.DB)
    (mid : Nat) (x y : String) :
    (∀ m, Chat.findMessage db mid = some m → m.sender ≠ x →
      Chat.deleteMessage db mid x =
        .error (403, "Cannot delete message from others")) ∧
    (∀ db', Chat.deleteMessage db mid x = .ok db' → y ≠ x → ∀ p q,
      (Chat.visibleHistory db' y p q).map Chat.msgView =
        (Chat.visibleHistory db y p q).map Chat.msgView) := by
  constructor
  · intro m hm hs
    unfold Chat.deleteMessage
    rw [hm]
    dsimp only
    rw [if_pos hs]
  · intro db' hok hyx p q
    unfold Chat.deleteMessage at hok
    cases hfind : Chat.findMessage db mid with
    | none => rw [hfind] at hok; cases hok
    | some m =>
        rw [hfind] at hok
        dsimp only at hok
        by_cases hs : m.sender ≠ x
        · rw [if_pos hs] at hok; cases hok
        · rw [if_neg hs] at hok
          by_cases hc : m.deletedFor.contains x = true
          · rw [if_pos hc] at hok
            cases hok
            rfl
          · rw [if_neg hc] at hok
            cases hok
            exact Chat.visibleHistory_after_delete db mid x y p q hyx

theorem softDelete_forbidden_and_preserves_other_histories_witness :
    Chat.deleteMessage Chat.demoDB1 0 "b" =
      .error (403, "Cannot delete message from others") ∧
    (Chat.visibleHistory Chat.demoDB1del "b" "a" "b").map Chat.msgView =
      (Chat.visibleHistory Chat.demoDB1 "b" "a" "b").map Chat.msgView :=
  ⟨(softDelete_forbidden_and_preserves_other_histories Chat.demoDB1 0 "b"
      "b").1 Chat.demoMsg (by decide) (by decide),
   (softDelete_forbidden_and_preserves_other_histories Chat.demoDB1 0 "a"
      "b").2 Chat.demoDB1del (by decide) (by decide) "a" "b"⟩

namespace Chat

theorem getUnreadCount_reset (sess : Session) (u : String) :
    getUnreadCount (resetUnreadCount sess u) u = 0 := by
  unfold getUnreadCount resetUnreadCount
  rw [AList.get_set_self]
  rfl

/-- Replacing a session document keyed by its participants array commutes
with a lookup whose predicate reads only the participants array. -/
theorem find?_map_replaceByKey (l : List Session) (newSess : Session)
    (p : Session → Bool)
    (hp : ∀ s1 s2 : Session, s1.participants = s2.participants →
      p s1 = p s2) :
    (l.map (fun t => if t.participants = newSess.participants then newSess
      else t)).find? p =
      (l.find? p).map (fun t =>
        if t.participants = newSess.participants then newSess else t) := by
  rw [List.find?_map]
  have hpe : (p ∘ (fun t => if t.participants = newSess.participants then
      newSess else t)) = p := by
    funext t
    by_cases ht : t.participants = newSess.participants
    · simp only [Function.comp, if_pos ht]
      exact hp newSess t ht.symm
    · simp only [Function.comp, if_neg ht]
  rw [hpe]

/-- saveSession commutes with a session lookup whose predicate reads only
the participants key. -/
theorem find?_sessions_saveSession (db : DB) (newSess : Session)
    (p : Session → Bool)
    (hp : ∀ s1 s2 : Session, s1.participants = s2.participants →
      p s1 = p s2) :
    (saveSession db newSess).sessions.find? p =
      (db.sessions.find? p).map (fun t =>
        if t.participants = newSess.participants then newSess else t) := by
  unfold saveSession
  exact find?_map_replaceByKey db.sessions newSess p hp

/-- The store after the receiver "b" fetches the history with "a" at time
12: the message is marked read and the session counter for "b" is reset. -/
def demoDB3 : DB :=
  ⟨["a", "b"], [⟨0, "a", "b", "hi", "text", true, some 12, [], 10⟩],
   [⟨["a", "b"], some 0, 10, [("a", 0), ("b", 0)],
     [("a", ⟨false, false, 10⟩), ("b", ⟨false, false, 10⟩)], true⟩], 1⟩

end Chat

/-- C10: getChatHistory is not read-only.  Whenever a call by requester R
about target T succeeds and a session containing both exists, the post
state rewrites the WHOLE message collection through markHistFn — every
message from T to R ends up with isRead = true (messages on pages not
returned included, since updateMany is unpaginated) — and the session
lookup now yields the session with unread counter 0 for R. -/
theorem getChatHistory_marks_all_read_and_resets_counter (db : Chat.DB)
    (cur tgt : String) (page limit now : Nat) (res : List Chat.Msg)
    (db' : Chat.DB)
    (hok : Chat.getChatHistory db cur tgt page limit now = .ok (res, db'))
    (sess : Chat.Session)
    (hsess : db.sessions.find? (fun ss =>
      ss.participants.contains cur && ss.participants.contains tgt) =
      some sess) :
    db'.messages = db.messages.map (Chat.markHistFn tgt cur now) ∧
    (∀ m ∈ db'.messages, m.sender = tgt → m.receiver = cur →
      m.isRead = true) ∧
    db'.sessions.find? (fun ss =>
      ss.participants.contains cur && ss.participants.contains tgt) =
      some (Chat.resetUnreadCount sess cur) ∧
    Chat.getUnreadCount (Chat.resetUnreadCount sess cur) cur = 0 := by
  unfold Chat.getChatHistory at hok
  split at hok
  · cases hok
  · split at hok
    · cases hok
    · split at hok
      · cases hok
      · rw [hsess] at hok
        dsimp only at hok
        cases hok
        refine ⟨rfl, ?_, ?_, Chat.getUnreadCount_reset sess cur⟩
        · intro m hm hsend hrecv
          simp only [Chat.saveSession] at hm
          obtain ⟨m0, hm0, hme⟩ := List.mem_map.mp hm
          subst hme
          unfold Chat.markHistFn
          by_cases hcond : (m0.sender == tgt && m0.receiver == cur &&
              !m0.isRead) = true
          · rw [if_pos hcond]
          · rw [if_neg hcond]
            unfold Chat.markHistFn at hsend hrecv
            rw [if_neg hcond] at hsend hrecv
            cases hb : m0.isRead with
            | true => rfl
            | false =>
                exfalso
                apply hcond
                simp [hsend, hrecv, hb]
        · have hsave := Chat.find?_sessions_saveSession
            { db with messages := db.messages.map (Chat.markHistFn tgt cur now) }
            (Chat.resetUnreadCount sess cur)
            (fun ss => ss.participants.contains cur &&
              ss.participants.contains tgt)
            (by intro s1 s2 hps; simp only [hps])
          rw [hsave]
          dsimp only
          rw [hsess]
          simp
          intro hcontra
          exact absurd rfl hcontra

theorem getChatHistory_marks_all_read_and_resets_counter_witness :
    Chat.demoDB3.messages =
      Chat.demoDB1.messages.map (Chat.markHistFn "a" "b" 12) ∧
    (∀ m ∈ Chat.demoDB3.messages, m.sender = "a" → m.receiver = "b" →
      m.isRead = true) ∧
    Chat.demoDB3.sessions.find? (fun ss =>
      ss.participants.contains "b" && ss.participants.contains "a") =
      some (Chat.resetUnreadCount Chat.demoSession "b") ∧
    Chat.getUnreadCount (Chat.resetUnreadCount Chat.demoSession "b") "b" = 0 :=
  getChatHistory_marks_all_read_and_resets_counter Chat.demoDB1 "b" "a" 1 50
    12 [Chat.demoMsg] Chat.demoDB3 (by decide) Chat.demoSession (by decide)

namespace Chat

end Chat

